import Mathlib

/-!
Shallow embedding of the DTMF tone-generator program (`src/main.rs`).

The program maps input characters to pairs of DTMF frequencies
(`to_frequencies`), sends `Play`/`Stop` commands over a channel (`play`),
and renders audio in a callback that zeroes the buffer, asks the dsp graph
(two sine oscillators feeding a synth node) for audio, and then drains at
most one pending command, updating oscillator frequency/volume.

Machine floating point (`f32`/`f64`) is embedded as `ℝ`; the channel is
embedded as a list of pending commands plus a liveness flag for each
endpoint; the audio buffer is a list of 2-channel frames (`ℝ × ℝ`,
`CHANNELS = 2`).
-/

/-- Embeds the Rust type alias `type Phase = f64`. -/
abbrev Phase := ℝ

/-- Embeds the Rust type alias `type Frequency = f64`. -/
abbrev Frequency := ℝ

/-- Embeds the Rust type alias `type Volume = f32`. -/
abbrev Volume := ℝ

/-- One interleaved frame of the output buffer: `CHANNELS = 2` samples. -/
abbrev Frame := ℝ × ℝ

/-- Embeds `const SAMPLE_HZ: f64 = 44_100.0`. -/
noncomputable def SAMPLE_HZ : ℝ := 44100

/-- Embeds `const FRAMES: u32 = 64`. -/
def FRAMES : Nat := 64

/-- Embeds `enum Command { Play(Frequency, Frequency), Stop }`. -/
inductive Command where
  | Play (freq_a freq_b : Frequency)
  | Stop

/-- True exactly on `Play` commands. -/
def Command.isPlay : Command → Bool
  | Command.Play _ _ => true
  | Command.Stop => false

/-- Embeds `fn to_frequencies(character : char) -> Option<(Frequency, Frequency)>`:
the fixed 16-entry DTMF table; any other character yields `none`. -/
def to_frequencies (character : Char) : Option (Frequency × Frequency) :=
  match character with
  | '1' => some (1209, 697)
  | '2' => some (1336, 697)
  | '3' => some (1477, 697)
  | 'A' => some (1633, 697)
  | '4' => some (1209, 770)
  | '5' => some (1336, 770)
  | '6' => some (1477, 770)
  | 'B' => some (1633, 770)
  | '7' => some (1209, 852)
  | '8' => some (1336, 852)
  | '9' => some (1477, 852)
  | 'C' => some (1633, 852)
  | '*' => some (1209, 941)
  | '0' => some (1336, 941)
  | '#' => some (1477, 941)
  | 'D' => some (1633, 941)
  | _ => none

/-- The 16 characters the DTMF table defines. -/
def dtmf_symbols : List Char :=
  ['1', '2', '3', 'A', '4', '5', '6', 'B', '7', '8', '9', 'C', '*', '0', '#', 'D']

/-- C1: for every character in the 16-symbol set, `to_frequencies` returns
the documented (high, low) frequency pair exactly (in particular `'5'`
yields `(1336, 770)`), and for every other character it returns `none`. -/
theorem to_frequencies_spec :
    (to_frequencies '1' = some (1209, 697)
      ∧ to_frequencies '2' = some (1336, 697)
      ∧ to_frequencies '3' = some (1477, 697)
      ∧ to_frequencies 'A' = some (1633, 697)
      ∧ to_frequencies '4' = some (1209, 770)
      ∧ to_frequencies '5' = some (1336, 770)
      ∧ to_frequencies '6' = some (1477, 770)
      ∧ to_frequencies 'B' = some (1633, 770)
      ∧ to_frequencies '7' = some (1209, 852)
      ∧ to_frequencies '8' = some (1336, 852)
      ∧ to_frequencies '9' = some (1477, 852)
      ∧ to_frequencies 'C' = some (1633, 852)
      ∧ to_frequencies '*' = some (1209, 941)
      ∧ to_frequencies '0' = some (1336, 941)
      ∧ to_frequencies '#' = some (1477, 941)
      ∧ to_frequencies 'D' = some (1633, 941))
    ∧ ∀ c : Char, c ∉ dtmf_symbols → to_frequencies c = none := by
  constructor
  · exact ⟨rfl, rfl, rfl, rfl, rfl, rfl, rfl, rfl, rfl, rfl, rfl, rfl, rfl, rfl, rfl, rfl⟩
  · intro c hc
    unfold to_frequencies
    split <;> simp_all [dtmf_symbols]

/-- Witness for C1: the unmapped character `'z'` yields `none`. -/
theorem to_frequencies_spec_witness : to_frequencies 'z' = none :=
  to_frequencies_spec.2 'z' (by decide)

/-- Embeds `fn sine_wave(phase, volume)`: `((phase * PI * 2.0).sin() as f32 * volume)`. -/
noncomputable def sine_wave (phase : Phase) (volume : Volume) : ℝ :=
  Real.sin (phase * Real.pi * 2) * volume

/-- Embeds `DspNode::audio_requested` for the `Oscillator` variant: for each
frame of the buffer in order, compute `val = sine_wave(phase, volume)`, write
`val` to every channel of the frame, then advance
`phase += frequency / sample_hz`.  Returns the rendered frames and the final
phase; the buffer length is the frame count `n`. -/
noncomputable def audio_requested (frequency : Frequency) (volume : Volume)
    (sample_hz : ℝ) : Phase → Nat → List Frame × Phase
  | phase, 0 => ([], phase)
  | phase, n + 1 =>
      let val := sine_wave phase volume
      let rest := audio_requested frequency volume sample_hz
        (phase + frequency / sample_hz) n
      ((val, val) :: rest.1, rest.2)

/-- Closed form of `audio_requested`: frame `i` holds
`sine_wave (phase + i * (frequency / sample_hz)) volume` on both channels,
and the final phase is `phase + n * (frequency / sample_hz)`. -/
theorem audio_requested_eq (frequency volume sample_hz : ℝ) (n : Nat) :
    ∀ phase : ℝ,
      audio_requested frequency volume sample_hz phase n =
        ((List.range n).map fun i : Nat =>
            (sine_wave (phase + (i : ℝ) * (frequency / sample_hz)) volume,
             sine_wave (phase + (i : ℝ) * (frequency / sample_hz)) volume),
         phase + n * (frequency / sample_hz)) := by
  induction n with
  | zero => intro phase; simp [audio_requested]
  | succ n ih =>
      intro phase
      simp only [audio_requested, ih, List.range_succ_eq_map, List.map_cons,
        List.map_map, Prod.mk.injEq, List.cons.injEq, Nat.cast_zero, zero_mul,
        add_zero, and_true, true_and]
      refine ⟨?_, ?_⟩
      · refine List.map_congr_left fun i _ => ?_
        have hi : phase + frequency / sample_hz + (i : ℝ) * (frequency / sample_hz)
            = phase + ((i : ℝ) + 1) * (frequency / sample_hz) := by ring
        simp only [Function.comp_apply, Nat.cast_succ, hi]
      · push_cast; ring

/-- C3: one render call writes, for each sample position `i` in order, the
value `sin(p_i * 2π) * v` (that is, `sine_wave p_i v`) to every channel of
frame `i`, where `p_0 = p` and `p_{i+1} = p_i + f / sample_rate`
(so `p_i = p + i * (f / sample_rate)`); after the call the stored phase
equals `p + n * f / sample_rate`. -/
theorem oscillator_render_spec (p f v sample_hz : ℝ) (n : Nat) :
    (audio_requested f v sample_hz p n).1 =
      ((List.range n).map fun i : Nat =>
        (sine_wave (p + (i : ℝ) * (f / sample_hz)) v,
         sine_wave (p + (i : ℝ) * (f / sample_hz)) v))
    ∧ (audio_requested f v sample_hz p n).2 = p + n * f / sample_hz := by
  rw [audio_requested_eq]
  exact ⟨rfl, by rw [mul_div_assoc]⟩

/-- Embeds the `DspNode::Oscillator(Phase, Frequency, Volume)` variant: the
mutable per-voice state.  The `Synth` variant carries no state and is a
no-op, so it needs no embedding. -/
structure Oscillator where
  phase : Phase
  frequency : Frequency
  volume : Volume

/-- The oscillator state owned by the callback closure: the two graph input
nodes `oscillator_a` and `oscillator_b`, both constructed as
`DspNode::Oscillator(0.0, 0.0, 0.0)`. -/
structure State where
  oscA : Oscillator
  oscB : Oscillator

/-- Embeds `dsp::slice::equilibrium(buffer)`: every frame set to zero. -/
def equilibrium (n : Nat) : List Frame :=
  List.replicate n ((0 : ℝ), (0 : ℝ))

/-- Frame-wise sum of two buffers (channel by channel). -/
def add_frames (xs ys : List Frame) : List Frame :=
  List.zipWith (fun x y => (x.1 + y.1, x.2 + y.2)) xs ys

/-- Modelled from the spec: `graph.audio_requested(buffer, SAMPLE_HZ)` runs
the dsp-chain graph traversal (external `dsp` crate, not in this
repository): each input oscillator renders one buffer of samples and the
contributions are accumulated (summed) into the passed buffer in place; the
master `Synth` node itself adds nothing.  Returns the filled buffer and the
state with both oscillators' phases advanced. -/
noncomputable def graph_audio_requested (buffer : List Frame) (s : State)
    (sample_hz : ℝ) : List Frame × State :=
  let a := audio_requested s.oscA.frequency s.oscA.volume sample_hz
    s.oscA.phase buffer.length
  let b := audio_requested s.oscB.frequency s.oscB.volume sample_hz
    s.oscB.phase buffer.length
  (add_frames (add_frames buffer a.1) b.1,
   ⟨⟨a.2, s.oscA.frequency, s.oscA.volume⟩,
    ⟨b.2, s.oscB.frequency, s.oscB.volume⟩⟩)

/-- Embeds the result of `rx.try_recv()`: `Ok(cmd)`,
`Err(TryRecvError::Empty)` or `Err(TryRecvError::Disconnected)`. -/
inductive RecvResult where
  | ok (c : Command)
  | empty
  | disconnected

/-- Embeds `std::sync::mpsc` `try_recv` against a queue of pending commands:
a pending command is delivered (even after the sender is dropped); an empty
queue reports `Empty` while the sender is alive and `Disconnected` once it
has been dropped. -/
def try_recv (queue : List Command) (sender_alive : Bool) :
    RecvResult × List Command :=
  match queue with
  | c :: rest => (RecvResult.ok c, rest)
  | [] => if sender_alive then (RecvResult.empty, []) else (RecvResult.disconnected, [])

/-- Embeds `pa::Continue` / `pa::Complete`, the callback's return value. -/
inductive CallbackFlow where
  | Continue
  | Complete

/-- Embeds the `match rx.try_recv()` block of the callback (the command
dispatcher): `Play(freq_a, freq_b)` sets each oscillator's pitch and sets
volume to `0.2`; `Stop` sets both volumes to `0.0`; `Empty` changes nothing;
all three return `pa::Continue`; `Disconnected` changes nothing and returns
`pa::Complete`. -/
noncomputable def dispatch (s : State) (r : RecvResult) : State × CallbackFlow :=
  match r with
  | RecvResult.ok (Command.Play freq_a freq_b) =>
      (⟨⟨s.oscA.phase, freq_a, 0.2⟩, ⟨s.oscB.phase, freq_b, 0.2⟩⟩,
       CallbackFlow.Continue)
  | RecvResult.ok Command.Stop =>
      (⟨⟨s.oscA.phase, s.oscA.frequency, 0⟩, ⟨s.oscB.phase, s.oscB.frequency, 0⟩⟩,
       CallbackFlow.Continue)
  | RecvResult.empty => (s, CallbackFlow.Continue)
  | RecvResult.disconnected => (s, CallbackFlow.Complete)

/-- Everything one callback invocation produces: the rendered buffer, the
oscillator state and pending-command queue left behind, and the flow value
returned to the driver. -/
structure CallbackResult where
  buffer : List Frame
  state : State
  queue : List Command
  flow : CallbackFlow

/-- Embeds the audio callback closure, in the source's order: first zero the
buffer (`dsp::slice::equilibrium`), then render the graph
(`graph.audio_requested(buffer, SAMPLE_HZ)`), and only then drain at most
one command (`rx.try_recv()`) and apply it to the oscillators.  `n` is the
frame count of the buffer the driver lends. -/
noncomputable def callback (s : State) (queue : List Command)
    (sender_alive : Bool) (n : Nat) : CallbackResult :=
  let buffer := equilibrium n
  let g := graph_audio_requested buffer s SAMPLE_HZ
  let r := try_recv queue sender_alive
  let d := dispatch g.2 r.1
  ⟨g.1, d.1, r.2, d.2⟩

/-- C4: processing `Play(fa, fb)` sets oscillator A's frequency to `fa`,
oscillator B's frequency to `fb`, both volumes to the fixed nonzero audible
level `0.2`, and leaves both phases exactly unchanged. -/
theorem dispatch_play_spec (s : State) (fa fb : Frequency) :
    (dispatch s (RecvResult.ok (Command.Play fa fb))).1.oscA.phase = s.oscA.phase
    ∧ (dispatch s (RecvResult.ok (Command.Play fa fb))).1.oscB.phase = s.oscB.phase
    ∧ (dispatch s (RecvResult.ok (Command.Play fa fb))).1.oscA.frequency = fa
    ∧ (dispatch s (RecvResult.ok (Command.Play fa fb))).1.oscB.frequency = fb
    ∧ (dispatch s (RecvResult.ok (Command.Play fa fb))).1.oscA.volume = 0.2
    ∧ (dispatch s (RecvResult.ok (Command.Play fa fb))).1.oscB.volume = 0.2
    ∧ (0.2 : ℝ) ≠ 0 :=
  ⟨rfl, rfl, rfl, rfl, rfl, rfl, by norm_num⟩

/-- C5: processing `Stop` sets both oscillators' volume to `0` and leaves
both frequencies and both phases exactly unchanged. -/
theorem dispatch_stop_spec (s : State) :
    (dispatch s (RecvResult.ok Command.Stop)).1.oscA.phase = s.oscA.phase
    ∧ (dispatch s (RecvResult.ok Command.Stop)).1.oscB.phase = s.oscB.phase
    ∧ (dispatch s (RecvResult.ok Command.Stop)).1.oscA.frequency = s.oscA.frequency
    ∧ (dispatch s (RecvResult.ok Command.Stop)).1.oscB.frequency = s.oscB.frequency
    ∧ (dispatch s (RecvResult.ok Command.Stop)).1.oscA.volume = 0
    ∧ (dispatch s (RecvResult.ok Command.Stop)).1.oscB.volume = 0 :=
  ⟨rfl, rfl, rfl, rfl, rfl, rfl⟩

/-- C7: a receive that finds the queue empty changes no oscillator state and
the callback returns `Continue`; a receive that finds the channel
disconnected changes no oscillator state either, and the callback returns
`Complete` on that very invocation instead of raising an error. -/
theorem dispatch_empty_disconnected_spec (s : State) (n : Nat) :
    dispatch s RecvResult.empty = (s, CallbackFlow.Continue)
    ∧ dispatch s RecvResult.disconnected = (s, CallbackFlow.Complete)
    ∧ (callback s [] true n).flow = CallbackFlow.Continue
    ∧ (callback s [] false n).flow = CallbackFlow.Complete :=
  ⟨rfl, rfl, rfl, rfl⟩

/-- C9: when at least one command is pending, exactly one command is
consumed by a callback invocation and the rest stay queued in order; with
nothing pending, nothing is consumed. -/
theorem one_command_per_callback (s : State) (c : Command)
    (rest : List Command) (sender_alive : Bool) (n : Nat) :
    (callback s (c :: rest) sender_alive n).queue = rest
    ∧ (callback s [] sender_alive n).queue = [] := by
  refine ⟨rfl, ?_⟩
  cases sender_alive <;> rfl

/-- The zero buffer as a map over sample positions. -/
theorem equilibrium_eq (n : Nat) :
    equilibrium n = (List.range n).map fun _ : Nat => ((0 : ℝ), (0 : ℝ)) := by
  rw [equilibrium, List.map_const', List.length_range]

/-- Frame-wise summation of two buffers produced over the same index list. -/
theorem add_frames_map_map {α : Type} (g h : α → Frame) (l : List α) :
    add_frames (l.map g) (l.map h) =
      l.map fun i => ((g i).1 + (h i).1, (g i).2 + (h i).2) := by
  induction l with
  | nil => rfl
  | cons x xs ih => simp [add_frames, List.zipWith] at ih ⊢

/-- The sample oscillator `o` contributes at position `i` of a callback
buffer. -/
noncomputable def osc_sample (o : Oscillator) (i : Nat) : ℝ :=
  sine_wave (o.phase + (i : ℝ) * (o.frequency / SAMPLE_HZ)) o.volume

/-- Closed form of the buffer one callback invocation renders: position `i`
carries, duplicated on both channels, zero plus oscillator A's sample plus
oscillator B's sample. -/
theorem callback_buffer_eq (s : State) (queue : List Command)
    (sender_alive : Bool) (n : Nat) :
    (callback s queue sender_alive n).buffer =
      (List.range n).map fun i : Nat =>
        (0 + osc_sample s.oscA i + osc_sample s.oscB i,
         0 + osc_sample s.oscA i + osc_sample s.oscB i) := by
  simp only [callback, graph_audio_requested, equilibrium_eq, List.length_map,
    List.length_range, audio_requested_eq, add_frames_map_map, osc_sample]

/-- The state a callback invocation leaves behind: dispatch applied to the
phase-advanced state. -/
theorem callback_state_eq (s : State) (queue : List Command)
    (sender_alive : Bool) (n : Nat) :
    (callback s queue sender_alive n).state =
      (dispatch
        ⟨⟨s.oscA.phase + n * (s.oscA.frequency / SAMPLE_HZ),
          s.oscA.frequency, s.oscA.volume⟩,
         ⟨s.oscB.phase + n * (s.oscB.frequency / SAMPLE_HZ),
          s.oscB.frequency, s.oscB.volume⟩⟩
        (try_recv queue sender_alive).1).1 := by
  simp only [callback, graph_audio_requested, equilibrium_eq, List.length_map,
    List.length_range, audio_requested_eq]

/-- Reading position `i < n` of a buffer built as a map over `range n`. -/
theorem getD_map_range {α : Type} (f : Nat → α) (n i : Nat) (d : α)
    (hi : i < n) : ((List.range n).map f).getD i d = f i := by
  rw [List.getD_eq_getElem _ d (by simpa using hi)]
  simp

/-- An oscillator sample is bounded by its (nonnegative) volume. -/
theorem abs_sine_wave_le (x v : ℝ) (hv : 0 ≤ v) : |sine_wave x v| ≤ v := by
  rw [sine_wave, abs_mul, abs_of_nonneg hv]
  exact mul_le_of_le_one_left hv (Real.abs_sin_le_one _)

/-- C6: the callback initializes the buffer to silence and accumulates the
two oscillators' outputs, so each rendered sample's magnitude (either
channel, any position `i < n`) is at most the sum of the two volumes. -/
theorem mix_amplitude_bound (s : State) (queue : List Command)
    (sender_alive : Bool) (n i : Nat)
    (hA : 0 ≤ s.oscA.volume) (hB : 0 ≤ s.oscB.volume) (hi : i < n) :
    |((callback s queue sender_alive n).buffer.getD i ((0 : ℝ), (0 : ℝ))).1|
        ≤ s.oscA.volume + s.oscB.volume
    ∧ |((callback s queue sender_alive n).buffer.getD i ((0 : ℝ), (0 : ℝ))).2|
        ≤ s.oscA.volume + s.oscB.volume := by
  rw [callback_buffer_eq, getD_map_range _ _ _ _ hi]
  have hbound : |(0 : ℝ) + osc_sample s.oscA i + osc_sample s.oscB i|
      ≤ s.oscA.volume + s.oscB.volume := by
    rw [zero_add]
    calc |osc_sample s.oscA i + osc_sample s.oscB i|
        ≤ |osc_sample s.oscA i| + |osc_sample s.oscB i| := abs_add _ _
      _ ≤ s.oscA.volume + s.oscB.volume :=
          add_le_add (abs_sine_wave_le _ _ hA) (abs_sine_wave_le _ _ hB)
  exact ⟨hbound, hbound⟩

/-- Witness for C6 at the all-zero state with a one-frame buffer. -/
theorem mix_amplitude_bound_witness :
    |((callback ⟨⟨0, 0, 0⟩, ⟨0, 0, 0⟩⟩ [] true 1).buffer.getD 0
        ((0 : ℝ), (0 : ℝ))).1| ≤ (0 : ℝ) + 0
    ∧ |((callback ⟨⟨0, 0, 0⟩, ⟨0, 0, 0⟩⟩ [] true 1).buffer.getD 0
        ((0 : ℝ), (0 : ℝ))).2| ≤ (0 : ℝ) + 0 :=
  mix_amplitude_bound ⟨⟨0, 0, 0⟩, ⟨0, 0, 0⟩⟩ [] true 1 0 le_rfl le_rfl
    Nat.zero_lt_one

/-- Counterexample to C2 as stated: at state `oscA = oscB = ⟨1/4, 0, 1⟩`
with a `Stop` pending, the buffer rendered by that same callback invocation
is not all-zero (its only frame holds `sin(π/2) + sin(π/2) = 2` on each
channel), because the command is only received after the buffer has been
rendered. -/
theorem callback_stop_same_buffer_counterexample :
    ¬ (callback ⟨⟨1/4, 0, 1⟩, ⟨1/4, 0, 1⟩⟩ [Command.Stop] true 1).buffer
        = List.replicate 1 ((0 : ℝ), (0 : ℝ)) := by
  intro h
  rw [callback_buffer_eq] at h
  have hs : osc_sample ⟨1/4, 0, 1⟩ 0 = 1 := by
    have harg : ((1/4 : ℝ) + ((0 : Nat) : ℝ) * ((0 : ℝ) / SAMPLE_HZ))
        * Real.pi * 2 = Real.pi / 2 := by
      push_cast; ring
    show sine_wave ((1/4 : ℝ) + ((0 : Nat) : ℝ) * ((0 : ℝ) / SAMPLE_HZ)) 1 = 1
    rw [sine_wave, harg, Real.sin_pi_div_two, mul_one]
  norm_num [show List.range 1 = [0] from rfl, hs] at h

/-- C2 amended: the pending command is received and applied only after the
buffer is rendered, so the invocation that receives `Stop` leaves both
volumes at zero, and from any zero-volume state every later invocation
renders an all-zero buffer and keeps both volumes at zero as long as the
received command is not a `Play`. -/
theorem callback_renders_before_command (s s' : State)
    (rest queue' : List Command) (alive alive' : Bool) (n m : Nat)
    (hA : s'.oscA.volume = 0) (hB : s'.oscB.volume = 0)
    (hq : ∀ c ∈ queue'.head?, c.isPlay = false) :
    ((callback s (Command.Stop :: rest) alive n).state.oscA.volume = 0
      ∧ (callback s (Command.Stop :: rest) alive n).state.oscB.volume = 0)
    ∧ (callback s' queue' alive' m).buffer = List.replicate m ((0 : ℝ), (0 : ℝ))
    ∧ (callback s' queue' alive' m).state.oscA.volume = 0
    ∧ (callback s' queue' alive' m).state.oscB.volume = 0 := by
  have hstay : (callback s' queue' alive' m).state.oscA.volume = 0
      ∧ (callback s' queue' alive' m).state.oscB.volume = 0 := by
    rw [callback_state_eq]
    cases queue' with
    | nil => cases alive' <;> simp [try_recv, dispatch, hA, hB]
    | cons c t =>
        cases c with
        | Play fa fb =>
            have hp := hq (Command.Play fa fb) (by simp)
            simp [Command.isPlay] at hp
        | Stop => simp [try_recv, dispatch]
  refine ⟨⟨rfl, rfl⟩, ?_, hstay.1, hstay.2⟩
  rw [callback_buffer_eq]
  simp [osc_sample, sine_wave, hA, hB, List.map_const', List.length_range]

/-- Witness for C2 amended: concrete zero-volume states, one-frame buffer. -/
theorem callback_renders_before_command_witness :
    ((callback ⟨⟨0, 0, 0⟩, ⟨0, 0, 0⟩⟩ [Command.Stop] true 1).state.oscA.volume = 0
      ∧ (callback ⟨⟨0, 0, 0⟩, ⟨0, 0, 0⟩⟩ [Command.Stop] true 1).state.oscB.volume = 0)
    ∧ (callback ⟨⟨0, 0, 0⟩, ⟨0, 0, 0⟩⟩ [] true 1).buffer
        = List.replicate 1 ((0 : ℝ), (0 : ℝ))
    ∧ (callback ⟨⟨0, 0, 0⟩, ⟨0, 0, 0⟩⟩ [] true 1).state.oscA.volume = 0
    ∧ (callback ⟨⟨0, 0, 0⟩, ⟨0, 0, 0⟩⟩ [] true 1).state.oscB.volume = 0 :=
  callback_renders_before_command ⟨⟨0, 0, 0⟩, ⟨0, 0, 0⟩⟩ ⟨⟨0, 0, 0⟩, ⟨0, 0, 0⟩⟩
    [] [] true true 1 1 rfl rfl (by simp)

/-- Trace events of the input-side `play` function: a successful channel
send, or a thread sleep of the given number of milliseconds. -/
inductive PlayEvent where
  | send (c : Command)
  | sleep (ms : Nat)

/-- Outcome of one `play` call: the ordered trace of sends and sleeps it
performed, or a panic from `send(..).unwrap()` failing because the
receiver has been dropped. -/
inductive PlayOutcome where
  | ok (trace : List PlayEvent)
  | panicked

/-- Embeds `fn play(channel, character)`: look the character up; if mapped,
send `Play(a, b)`, sleep 200 ms, send `Stop`, sleep 50 ms (each send going
through `.unwrap()`, which panics when the receiving end of the channel has
been dropped); if unmapped, do nothing. -/
noncomputable def play (receiver_alive : Bool) (character : Char) : PlayOutcome :=
  match to_frequencies character with
  | some (a, b) =>
      if receiver_alive then
        PlayOutcome.ok [PlayEvent.send (Command.Play a b), PlayEvent.sleep 200,
          PlayEvent.send Command.Stop, PlayEvent.sleep 50]
      else PlayOutcome.panicked
  | none => PlayOutcome.ok []

/-- C8: for a mapped character, `play` performs exactly
send `Play(a, b)`, sleep 200 ms, send `Stop`, sleep 50 ms, in that order;
for an unmapped character it performs no send and no sleep. -/
theorem play_trace_spec (c : Char) (a b : Frequency) :
    (to_frequencies c = some (a, b) →
      play true c = PlayOutcome.ok [PlayEvent.send (Command.Play a b),
        PlayEvent.sleep 200, PlayEvent.send Command.Stop, PlayEvent.sleep 50])
    ∧ (to_frequencies c = none → play true c = PlayOutcome.ok []) := by
  constructor <;> intro h <;> simp [play, h]

/-- Witness for C8: the mapped character `'5'`. -/
theorem play_trace_spec_witness :
    play true '5' = PlayOutcome.ok [PlayEvent.send (Command.Play 1336 770),
      PlayEvent.sleep 200, PlayEvent.send Command.Stop, PlayEvent.sleep 50] :=
  (play_trace_spec '5' 1336 770).1 rfl

/-- C10: once the receiver has been dropped, `play` on any mapped character
panics on the failed send's `unwrap` instead of returning an error or
ignoring the character. -/
theorem play_panics_on_disconnect (c : Char) (p : Frequency × Frequency)
    (h : to_frequencies c = some p) :
    play false c = PlayOutcome.panicked := by
  obtain ⟨a, b⟩ := p
  simp [play, h]

/-- Witness for C10: the mapped character `'5'`. -/
theorem play_panics_on_disconnect_witness :
    play false '5' = PlayOutcome.panicked :=
  play_panics_on_disconnect '5' (1336, 770) rfl
